import Mathlib

/-!
Shallow embedding of the grocery inventory engine (`src/inventory.ts`).

The TypeScript code mutates `Item` objects in place; here each updater is a
pure function `Item → Item` and the engine methods are state transformers
`StoreInventory → α × StoreInventory` returning the method's result together
with the post-state.  JavaScript numbers in this program are used only as
integers, so `sellIn` and `quality` are `Int`.
-/

/-- JS `String.prototype.toLowerCase()` (the item names of this program are
ASCII): lower-case every character. -/
def toLowerCase (s : String) : String :=
  ⟨s.data.map Char.toLower⟩

/-- JS `String.prototype.startsWith(prefixStr)`: the character sequence of
`p` is an initial segment of that of `s`. -/
def jsStartsWith (s p : String) : Bool :=
  p.data.isPrefixOf s.data

/-- `Item` class: name, sellIn, quality (the optional `size` flag is never
written or read by the engine and is omitted). -/
structure Item where
  name : String
  sellIn : Int
  quality : Int
deriving Repr, DecidableEq, Inhabited

/-- `BaseUpdater.maxQuality`. -/
def BaseUpdater.maxQuality : Int := 25

/-- `BaseUpdater.minQuality`. -/
def BaseUpdater.minQuality : Int := 0

/-- `BaseUpdater.adjustQualityLimits`:
`item.quality = Math.max(minQuality, Math.min(maxQuality, item.quality))`. -/
def BaseUpdater.adjustQualityLimits (item : Item) : Item :=
  { item with quality := max BaseUpdater.minQuality (min BaseUpdater.maxQuality item.quality) }

/-- `CheeseUpdater.update`: `sellIn--`, then increase quality by 2 if the
updated `sellIn` is negative, else by 1, then clamp. -/
def CheeseUpdater.update (item : Item) : Item :=
  let item := { item with sellIn := item.sellIn - 1 }
  let increase : Int := if item.sellIn < 0 then 2 else 1
  let item := { item with quality := item.quality + increase }
  BaseUpdater.adjustQualityLimits item

/-- `RamenUpdater.update`: no changes to quality or sellIn. -/
def RamenUpdater.update (item : Item) : Item :=
  item

/-- `OrganicUpdater.update`: `sellIn--`, then decrease quality by 4 if the
updated `sellIn` is negative, else by 2, then clamp. -/
def OrganicUpdater.update (item : Item) : Item :=
  let item := { item with sellIn := item.sellIn - 1 }
  let degradation : Int := if item.sellIn < 0 then 4 else 2
  let item := { item with quality := item.quality - degradation }
  BaseUpdater.adjustQualityLimits item

/-- `NormalUpdater.update`: `sellIn--`, then decrease quality by 2 if the
updated `sellIn` is negative, else by 1, then clamp. -/
def NormalUpdater.update (item : Item) : Item :=
  let item := { item with sellIn := item.sellIn - 1 }
  let degradation : Int := if item.sellIn < 0 then 2 else 1
  let item := { item with quality := item.quality - degradation }
  BaseUpdater.adjustQualityLimits item

/-- Tags for the four `ItemUpdater` strategy objects held by the selector. -/
inductive ItemUpdater where
  | cheese
  | ramen
  | organic
  | normal
deriving Repr, DecidableEq, Inhabited

/-- Dispatch of `ItemUpdater.update` to the strategy implementations. -/
def ItemUpdater.update : ItemUpdater → Item → Item
  | .cheese, item => CheeseUpdater.update item
  | .ramen, item => RamenUpdater.update item
  | .organic, item => OrganicUpdater.update item
  | .normal, item => NormalUpdater.update item

namespace StoreInventory

/-- `namedUpdaterMatcher`: exact-name map, keys stored in lowercase. -/
def namedUpdaterMatcher : List (String × ItemUpdater) :=
  [("cheddar cheese", ItemUpdater.cheese),
   ("instant ramen", ItemUpdater.ramen)]

/-- `fallbackMatcher`: ordered predicate list — organic prefix match, then the
catch-all default. -/
def fallbackMatcher : List ((String → Bool) × ItemUpdater) :=
  [(fun name => jsStartsWith (toLowerCase name) "organic", ItemUpdater.organic),
   (fun _ => true, ItemUpdater.normal)]

/-- `this.fallbackMatcher.find(u => u.matches(item.name))`. -/
def fallbackFind (name : String) : Option ((String → Bool) × ItemUpdater) :=
  fallbackMatcher.find? (fun u => u.1 name)

/-- `StoreInventory.getUpdater`: exact lowercase lookup first, otherwise the
first matching fallback entry; `entry!` (the non-null assertion) is embedded
as `Option.get!`. -/
def getUpdater (item : Item) : ItemUpdater :=
  let lowerName := toLowerCase item.name
  match namedUpdaterMatcher.lookup lowerName with
  | some named => named
  | none => ((fallbackFind item.name).get!).2

end StoreInventory

/-- `StoreInventory`'s private state: its owned item list. -/
structure StoreInventory where
  items : List Item
deriving Repr, DecidableEq, Inhabited

namespace StoreInventory

/-- The constructor:
`this.items = items.map(item => new Item(item.name, item.sellIn, item.quality))`. -/
def construct (items : List Item) : StoreInventory :=
  ⟨items.map (fun item => Item.mk item.name item.sellIn item.quality)⟩

/-- `getItems`: returns a copy of the item list; mutates nothing, so the
post-state is the input state. -/
def getItems (s : StoreInventory) : List Item × StoreInventory :=
  (s.items, s)

/-- `updateQuality`: update every item with its selected strategy, drop items
with `sellIn < -4`, return `getItems()`. -/
def updateQuality (s : StoreInventory) : List Item × StoreInventory :=
  let updated := s.items.map (fun item => (getUpdater item).update item)
  let s' : StoreInventory := ⟨updated.filter (fun item => item.sellIn ≥ -4)⟩
  (s'.getItems.1, s')

/-- The post-state after one `updateQuality` call. -/
def step (s : StoreInventory) : StoreInventory :=
  (s.updateQuality).2

/-- The post-state after `n` successive `updateQuality` calls. -/
def stepN (n : Nat) (s : StoreInventory) : StoreInventory :=
  Nat.iterate step n s

end StoreInventory

/-!
### Shared lemmas
-/

/-- The clamp keeps quality inside `[0, 25]` whatever the input value is. -/
theorem adjustQualityLimits_bounds (item : Item) :
    0 ≤ (BaseUpdater.adjustQualityLimits item).quality
    ∧ (BaseUpdater.adjustQualityLimits item).quality ≤ 25 := by
  simp only [BaseUpdater.adjustQualityLimits, BaseUpdater.maxQuality, BaseUpdater.minQuality]
  constructor <;> [exact le_max_left 0 _; exact max_le (by norm_num) (min_le_left 25 _)]

/-- Every strategy except the ramen one ends by clamping, so its output
quality lies in `[0, 25]`. -/
theorem update_quality_bounds (u : ItemUpdater) (hu : u ≠ ItemUpdater.ramen) (i : Item) :
    0 ≤ (u.update i).quality ∧ (u.update i).quality ≤ 25 := by
  cases u with
  | ramen => exact absurd rfl hu
  | cheese => exact adjustQualityLimits_bounds _
  | organic => exact adjustQualityLimits_bounds _
  | normal => exact adjustQualityLimits_bounds _

/-- Membership in the post-state of `updateQuality`: exactly the strategy
updates of the old items whose new `sellIn` is at least `-4`. -/
theorem mem_updateQuality (s : StoreInventory) (j : Item) :
    j ∈ (s.updateQuality).2.items ↔
      (∃ i ∈ s.items, j = (StoreInventory.getUpdater i).update i) ∧ -4 ≤ j.sellIn := by
  simp only [StoreInventory.updateQuality, StoreInventory.getItems, List.mem_filter,
    List.mem_map, ge_iff_le, decide_eq_true_eq]
  constructor
  · rintro ⟨⟨i, hi, rfl⟩, hge⟩
    exact ⟨⟨i, hi, rfl⟩, hge⟩
  · rintro ⟨⟨i, hi, rfl⟩, hge⟩
    exact ⟨⟨i, hi, rfl⟩, hge⟩

/-!
### Claim theorems
-/

/-- C1: for every item whose quality starts in `[0, 25]` and whose selected
strategy is Standard (normal), FastDegrading (organic) or Appreciating
(cheese), one `updateQuality` call leaves every surviving item's quality in
`[0, 25]`; the Appreciating strategy is clamped at 25. -/
theorem c1_quality_bounds_preserved (s : StoreInventory)
    (h : ∀ i ∈ s.items, StoreInventory.getUpdater i ≠ ItemUpdater.ramen
          ∧ 0 ≤ i.quality ∧ i.quality ≤ 25) :
    ∀ j ∈ (s.updateQuality).2.items, 0 ≤ j.quality ∧ j.quality ≤ 25 := by
  intro j hj
  obtain ⟨⟨i, hi, rfl⟩, -⟩ := (mem_updateQuality s j).1 hj
  exact update_quality_bounds _ (h i hi).1 i

/-- Witness for C1: a store of one Standard, one Appreciating and one
FastDegrading item, all with quality in `[0, 25]`. -/
theorem c1_quality_bounds_preserved_witness :
    (∀ i ∈ (StoreInventory.construct
        [Item.mk "Apple" 10 10, Item.mk "Cheddar Cheese" 0 25,
         Item.mk "Organic Avocado" 5 16]).items,
      StoreInventory.getUpdater i ≠ ItemUpdater.ramen ∧ 0 ≤ i.quality ∧ i.quality ≤ 25)
    ∧ ∀ j ∈ ((StoreInventory.construct
        [Item.mk "Apple" 10 10, Item.mk "Cheddar Cheese" 0 25,
         Item.mk "Organic Avocado" 5 16]).updateQuality).2.items,
        0 ≤ j.quality ∧ j.quality ≤ 25 :=
  ⟨by decide, c1_quality_bounds_preserved _ (by decide)⟩

/-- C10: the clamp repairs arbitrary initial qualities: for any store whose
items all select a non-ramen strategy, every surviving item after one
`updateQuality` call has quality in `[0, 25]`, with no assumption on the
initial quality values. -/
theorem c10_quality_clamped_from_any (s : StoreInventory)
    (h : ∀ i ∈ s.items, StoreInventory.getUpdater i ≠ ItemUpdater.ramen) :
    ∀ j ∈ (s.updateQuality).2.items, 0 ≤ j.quality ∧ j.quality ≤ 25 := by
  intro j hj
  obtain ⟨⟨i, hi, rfl⟩, -⟩ := (mem_updateQuality s j).1 hj
  exact update_quality_bounds _ (h i hi) i

/-- Witness for C10: out-of-range initial qualities 100 and -3 are pulled
back into `[0, 25]`. -/
theorem c10_quality_clamped_from_any_witness :
    (∀ i ∈ (StoreInventory.construct
        [Item.mk "Apple" 10 100, Item.mk "Cheddar Cheese" 4 (-3)]).items,
      StoreInventory.getUpdater i ≠ ItemUpdater.ramen)
    ∧ ∀ j ∈ ((StoreInventory.construct
        [Item.mk "Apple" 10 100, Item.mk "Cheddar Cheese" 4 (-3)]).updateQuality).2.items,
        0 ≤ j.quality ∧ j.quality ≤ 25 :=
  ⟨by decide, c10_quality_clamped_from_any _ (by decide)⟩

/-- C2: the Standard, FastDegrading and Appreciating strategies decrement
`sellIn` by exactly 1 first and pick the rate from the already-updated
`sellIn`, so an item entering with `sellIn = 0` already gets the doubled rate
that day: Standard loses 2, FastDegrading loses 4, Appreciating gains 2
(stated away from the clamp boundaries, `4 ≤ q ≤ 23`). -/
theorem c2_decrement_first_rates (n : String) (s q : Int) (h4 : 4 ≤ q) (h23 : q ≤ 23) :
    (NormalUpdater.update (Item.mk n s q)
        = Item.mk n (s - 1) (max 0 (min 25 (q - (if s - 1 < 0 then 2 else 1)))))
    ∧ (OrganicUpdater.update (Item.mk n s q)
        = Item.mk n (s - 1) (max 0 (min 25 (q - (if s - 1 < 0 then 4 else 2)))))
    ∧ (CheeseUpdater.update (Item.mk n s q)
        = Item.mk n (s - 1) (max 0 (min 25 (q + (if s - 1 < 0 then 2 else 1)))))
    ∧ (NormalUpdater.update (Item.mk n 0 q) = Item.mk n (-1) (q - 2))
    ∧ (OrganicUpdater.update (Item.mk n 0 q) = Item.mk n (-1) (q - 4))
    ∧ (CheeseUpdater.update (Item.mk n 0 q) = Item.mk n (-1) (q + 2)) := by
  refine ⟨?_, ?_, ?_, ?_, ?_, ?_⟩ <;>
    simp only [NormalUpdater.update, OrganicUpdater.update, CheeseUpdater.update,
      BaseUpdater.adjustQualityLimits, BaseUpdater.maxQuality, BaseUpdater.minQuality,
      Item.mk.injEq, true_and] <;>
    try constructor
  all_goals try norm_num
  all_goals omega

/-- Witness for C2: the spec's example `sellIn = 0, quality = 10` under each
of the three sell-by-sensitive strategies. -/
theorem c2_decrement_first_rates_witness :
    (4 : Int) ≤ 10 ∧ (10 : Int) ≤ 23
    ∧ NormalUpdater.update (Item.mk "Apple" 0 10) = Item.mk "Apple" (-1) 8
    ∧ OrganicUpdater.update (Item.mk "Apple" 0 10) = Item.mk "Apple" (-1) 6
    ∧ CheeseUpdater.update (Item.mk "Apple" 0 10) = Item.mk "Apple" (-1) 12 :=
  ⟨by decide, by decide,
    ((c2_decrement_first_rates "Apple" 0 10 (by decide) (by decide)).2.2.2.1).trans (by decide),
    ((c2_decrement_first_rates "Apple" 0 10 (by decide) (by decide)).2.2.2.2.1).trans (by decide),
    ((c2_decrement_first_rates "Apple" 0 10 (by decide) (by decide)).2.2.2.2.2).trans (by decide)⟩

/-- C3 counterexample: an Unchanging item ("Instant Ramen") entering with
`sellIn = -4` is NOT brought to `-5` and NOT removed: its sellIn stays `-4`,
it survives, and the owned collection does not shrink. -/
theorem c3_removal_regardless_of_category_counterexample :
    (((StoreInventory.construct [Item.mk "Instant Ramen" (-4) 5]).updateQuality).2.items
        = [Item.mk "Instant Ramen" (-4) 5])
    ∧ ¬ (((StoreInventory.construct [Item.mk "Instant Ramen" (-4) 5]).updateQuality).2.items.length
          < (StoreInventory.construct [Item.mk "Instant Ramen" (-4) 5]).items.length) := by
  decide

/-- C3 amended: for every item with `sellIn = -4` whose selected strategy is
not the Unchanging (ramen) one, one `updateQuality` call brings its sellIn to
`-5`, removes it from the returned snapshot, and shrinks the owned
collection by one. -/
theorem c3_removal_at_minus_four (i : Item) (h4 : i.sellIn = -4)
    (hr : StoreInventory.getUpdater i ≠ ItemUpdater.ramen) :
    ((StoreInventory.getUpdater i).update i).sellIn = -5
    ∧ ((StoreInventory.construct [i]).updateQuality).1 = []
    ∧ ((StoreInventory.construct [i]).updateQuality).2.items.length + 1
        = (StoreInventory.construct [i]).items.length := by
  have hs : ((StoreInventory.getUpdater i).update i).sellIn = -5 := by
    cases hu : StoreInventory.getUpdater i with
    | ramen => exact absurd hu hr
    | cheese =>
        simp [ItemUpdater.update, CheeseUpdater.update, BaseUpdater.adjustQualityLimits, h4]
    | organic =>
        simp [ItemUpdater.update, OrganicUpdater.update, BaseUpdater.adjustQualityLimits, h4]
    | normal =>
        simp [ItemUpdater.update, NormalUpdater.update, BaseUpdater.adjustQualityLimits, h4]
  refine ⟨hs, ?_, ?_⟩ <;>
    simp [StoreInventory.updateQuality, StoreInventory.construct, StoreInventory.getItems,
      List.filter, hs]

/-- Witness for the amended C3: a Standard item at `sellIn = -4` disappears. -/
theorem c3_removal_at_minus_four_witness :
    (Item.mk "Apple" (-4) 10).sellIn = -4
    ∧ StoreInventory.getUpdater (Item.mk "Apple" (-4) 10) ≠ ItemUpdater.ramen
    ∧ ((StoreInventory.construct [Item.mk "Apple" (-4) 10]).updateQuality).1 = [] :=
  ⟨by decide, by decide,
    (c3_removal_at_minus_four (Item.mk "Apple" (-4) 10) (by decide) (by decide)).2.1⟩

/-- C4: an Unchanging-category item (name lowering to "instant ramen")
selects the ramen strategy, whose update writes no field (no clamping, so an
out-of-range quality is preserved verbatim), and after any number of
`updateQuality` calls every item still in the store equals the constructed
item byte for byte. -/
theorem c4_unchanging_frozen (i : Item) (h : toLowerCase i.name = "instant ramen") :
    StoreInventory.getUpdater i = ItemUpdater.ramen
    ∧ (StoreInventory.getUpdater i).update i = i
    ∧ ∀ (n : Nat), ∀ j ∈ (StoreInventory.stepN n (StoreInventory.construct [i])).items, j = i := by
  have hg : StoreInventory.getUpdater i = ItemUpdater.ramen := by
    simp [StoreInventory.getUpdater, StoreInventory.namedUpdaterMatcher, h, List.lookup]
  have key : ∀ s : StoreInventory, (∀ j ∈ s.items, j = i) →
      ∀ j ∈ (StoreInventory.step s).items, j = i := by
    intro s hall j hj
    obtain ⟨⟨i0, hi0, rfl⟩, -⟩ := (mem_updateQuality s j).1 hj
    rw [hall i0 hi0, hg]
    rfl
  refine ⟨hg, by rw [hg]; rfl, ?_⟩
  intro n
  induction n with
  | zero =>
      intro j hj
      simp only [StoreInventory.stepN, Function.iterate_zero, id_eq,
        StoreInventory.construct, List.map, List.mem_singleton] at hj
      exact hj
  | succ n ih =>
      intro j hj
      rw [show StoreInventory.stepN (n + 1) (StoreInventory.construct [i])
            = StoreInventory.step (StoreInventory.stepN n (StoreInventory.construct [i])) from
          Function.iterate_succ_apply' _ _ _] at hj
      exact key _ ih j hj

/-- Witness for C4: "Instant Ramen" constructed with quality 100 (outside
`[0, 25]`) is untouched by its strategy. -/
theorem c4_unchanging_frozen_witness :
    toLowerCase "Instant Ramen" = "instant ramen"
    ∧ (StoreInventory.getUpdater (Item.mk "Instant Ramen" 3 100)).update
        (Item.mk "Instant Ramen" 3 100) = Item.mk "Instant Ramen" 3 100 :=
  ⟨by decide, (c4_unchanging_frozen (Item.mk "Instant Ramen" 3 100) (by decide)).2.1⟩

/-- C5: three-tier strategy selection for every item name: an exact
case-insensitive registry match ("cheddar cheese" → Appreciating,
"instant ramen" → Unchanging) wins over everything; otherwise a
case-insensitive "organic" name prefix selects FastDegrading; every
remaining name falls through to the Standard strategy. -/
theorem c5_strategy_selection_precedence (i : Item) :
    (toLowerCase i.name = "cheddar cheese" → StoreInventory.getUpdater i = ItemUpdater.cheese)
    ∧ (toLowerCase i.name = "instant ramen" → StoreInventory.getUpdater i = ItemUpdater.ramen)
    ∧ (toLowerCase i.name ≠ "cheddar cheese" → toLowerCase i.name ≠ "instant ramen" →
        jsStartsWith (toLowerCase i.name) "organic" = true →
        StoreInventory.getUpdater i = ItemUpdater.organic)
    ∧ (toLowerCase i.name ≠ "cheddar cheese" → toLowerCase i.name ≠ "instant ramen" →
        jsStartsWith (toLowerCase i.name) "organic" = false →
        StoreInventory.getUpdater i = ItemUpdater.normal) := by
  refine ⟨?_, ?_, ?_, ?_⟩
  · intro h
    simp [StoreInventory.getUpdater, StoreInventory.namedUpdaterMatcher, h, List.lookup]
  · intro h
    simp [StoreInventory.getUpdater, StoreInventory.namedUpdaterMatcher, h, List.lookup]
  · intro h1 h2 horg
    have b1 : (toLowerCase i.name == "cheddar cheese") = false := beq_eq_false_iff_ne.mpr h1
    have b2 : (toLowerCase i.name == "instant ramen") = false := beq_eq_false_iff_ne.mpr h2
    simp [StoreInventory.getUpdater, StoreInventory.namedUpdaterMatcher, List.lookup, b1, b2,
      StoreInventory.fallbackFind, StoreInventory.fallbackMatcher, List.find?, horg, Option.get!]
  · intro h1 h2 horg
    have b1 : (toLowerCase i.name == "cheddar cheese") = false := beq_eq_false_iff_ne.mpr h1
    have b2 : (toLowerCase i.name == "instant ramen") = false := beq_eq_false_iff_ne.mpr h2
    simp [StoreInventory.getUpdater, StoreInventory.namedUpdaterMatcher, List.lookup, b1, b2,
      StoreInventory.fallbackFind, StoreInventory.fallbackMatcher, List.find?, horg, Option.get!]

/-- Witness for C5: the prefix tier — "Organic Milk" is not in the registry
and selects the FastDegrading strategy. -/
theorem c5_strategy_selection_precedence_witness :
    toLowerCase "Organic Milk" ≠ "cheddar cheese"
    ∧ toLowerCase "Organic Milk" ≠ "instant ramen"
    ∧ jsStartsWith (toLowerCase "Organic Milk") "organic" = true
    ∧ StoreInventory.getUpdater (Item.mk "Organic Milk" 0 0) = ItemUpdater.organic :=
  ⟨by decide, by decide, by decide,
    (c5_strategy_selection_precedence (Item.mk "Organic Milk" 0 0)).2.2.1
      (by decide) (by decide) (by decide)⟩

/-- Each strategy's effect on `sellIn`: the ramen strategy leaves it fixed,
the three others decrement it by exactly 1. -/
theorem update_sellIn (u : ItemUpdater) (i : Item) :
    (u.update i).sellIn = if u = ItemUpdater.ramen then i.sellIn else i.sellIn - 1 := by
  cases u <;>
    simp [ItemUpdater.update, CheeseUpdater.update, RamenUpdater.update,
      OrganicUpdater.update, NormalUpdater.update, BaseUpdater.adjustQualityLimits]

/-- C6: `sellIn` never increases across `updateQuality` calls: the selected
strategy keeps an Unchanging item's `sellIn` fixed and decrements every other
item's `sellIn` by exactly 1, and every item of the post-state comes from an
item of the pre-state with a `sellIn` at least as large. -/
theorem c6_sellIn_monotone (i : Item) (s : StoreInventory) :
    ((StoreInventory.getUpdater i = ItemUpdater.ramen →
        ((StoreInventory.getUpdater i).update i).sellIn = i.sellIn)
    ∧ (StoreInventory.getUpdater i ≠ ItemUpdater.ramen →
        ((StoreInventory.getUpdater i).update i).sellIn = i.sellIn - 1)
    ∧ ((StoreInventory.getUpdater i).update i).sellIn ≤ i.sellIn)
    ∧ ∀ j ∈ (StoreInventory.step s).items,
        ∃ i0 ∈ s.items, j = (StoreInventory.getUpdater i0).update i0 ∧ j.sellIn ≤ i0.sellIn := by
  refine ⟨⟨?_, ?_, ?_⟩, ?_⟩
  · intro h; rw [update_sellIn]; simp [h]
  · intro h; rw [update_sellIn]; simp [h]
  · rw [update_sellIn]; split <;> omega
  · intro j hj
    obtain ⟨⟨i0, hi0, rfl⟩, -⟩ := (mem_updateQuality s j).1 hj
    exact ⟨i0, hi0, rfl, by rw [update_sellIn]; split <;> omega⟩

/-- Witness for C6: a Standard item's `sellIn` drops from 3 to 2. -/
theorem c6_sellIn_monotone_witness :
    StoreInventory.getUpdater (Item.mk "Apple" 3 10) ≠ ItemUpdater.ramen
    ∧ ((StoreInventory.getUpdater (Item.mk "Apple" 3 10)).update
        (Item.mk "Apple" 3 10)).sellIn = (Item.mk "Apple" 3 10).sellIn - 1 :=
  ⟨by decide,
    (c6_sellIn_monotone (Item.mk "Apple" 3 10) (StoreInventory.construct [])).1.2.1 (by decide)⟩

/-- Reference-semantics layer for the constructor: a JS heap of `Item`
objects, where an object reference is an index into the allocation list. -/
def heapGet (h : List Item) (r : Nat) : Item :=
  h.getD r default

/-- Mutation of the fields of the object at reference `r`. -/
def heapSet (h : List Item) (r : Nat) (v : Item) : List Item :=
  h.set r v

/-- The constructor under the heap model:
`items.map(item => new Item(item.name, item.sellIn, item.quality))` reads
each caller reference and allocates a fresh object carrying the same field
values; the engine keeps the fresh references `h.length + k`. -/
def constructAlloc (h : List Item) (refs : List Nat) : List Item × List Nat :=
  (h ++ refs.map (fun r =>
      Item.mk (heapGet h r).name (heapGet h r).sellIn (heapGet h r).quality),
   (List.range refs.length).map (fun k => h.length + k))

/-- C7: construction deep-copies every input item: the engine's references
are fresh, the engine's tracked field values equal the constructor
arguments' field values, and mutating a caller object after construction
does not change any engine-tracked value (and vice versa). -/
theorem c7_construction_isolation (h : List Item) (refs : List Nat) (v : Item)
    (hv : ∀ r ∈ refs, r < h.length) :
    ((constructAlloc h refs).2 = (List.range refs.length).map (fun k => h.length + k))
    ∧ (∀ k, (hk : k < refs.length) →
        heapGet (constructAlloc h refs).1 (h.length + k) = heapGet h (refs.get ⟨k, hk⟩))
    ∧ (∀ r ∈ refs, ∀ k < refs.length,
        heapGet (heapSet (constructAlloc h refs).1 r v) (h.length + k)
          = heapGet (constructAlloc h refs).1 (h.length + k))
    ∧ (∀ k < refs.length, ∀ r ∈ refs,
        heapGet (heapSet (constructAlloc h refs).1 (h.length + k) v) r
          = heapGet (constructAlloc h refs).1 r) := by
  refine ⟨rfl, ?_, ?_, ?_⟩
  · intro k hk
    simp only [constructAlloc, heapGet, List.getD, List.get?_eq_getElem?]
    rw [List.getElem?_append_right (Nat.le_add_right _ _)]
    simp [List.getElem?_map, List.getElem?_eq_getElem hk]
  · intro r hr k hk
    have hne : r ≠ h.length + k := by have := hv r hr; omega
    simp only [heapGet, heapSet, List.getD, List.get?_eq_getElem?]
    rw [List.getElem?_set_ne hne]
  · intro k hk r hr
    have hne : h.length + k ≠ r := by have := hv r hr; omega
    simp only [heapGet, heapSet, List.getD, List.get?_eq_getElem?]
    rw [List.getElem?_set_ne hne]

/-- Witness for C7: one caller object; mutating it after construction leaves
the engine's copy untouched. -/
theorem c7_construction_isolation_witness :
    (∀ r ∈ [0], r < [Item.mk "Apple" 1 2].length)
    ∧ heapGet (heapSet (constructAlloc [Item.mk "Apple" 1 2] [0]).1 0 (Item.mk "X" 9 9))
        ([Item.mk "Apple" 1 2].length + 0)
      = heapGet (constructAlloc [Item.mk "Apple" 1 2] [0]).1 ([Item.mk "Apple" 1 2].length + 0) :=
  ⟨by decide,
    (c7_construction_isolation [Item.mk "Apple" 1 2] [0] (Item.mk "X" 9 9)
        (by decide)).2.2.1 0 (by decide) 0 (by decide)⟩

/-- C8: `getItems` is side-effect free and idempotent: it leaves the engine
state unchanged, and two consecutive calls with no intervening update return
value-equal item sequences. -/
theorem c8_getItems_pure (s : StoreInventory) :
    (s.getItems).2 = s ∧ (s.getItems).1 = (((s.getItems).2).getItems).1 :=
  ⟨rfl, rfl⟩

/-- C9: strategy resolution is total: the fallback matcher list ends in a
catch-all predicate, so `find` succeeds on every item name and the non-null
assertion in `getUpdater` is safe. -/
theorem c9_fallback_total (name : String) :
    (StoreInventory.fallbackFind name).isSome = true := by
  cases horg : jsStartsWith (toLowerCase name) "organic" <;>
    simp [StoreInventory.fallbackFind, StoreInventory.fallbackMatcher, List.find?, horg]
